import Mathlib

/-!
Shallow embedding of `fetch_pr_comments.py`, a script that fetches the latest
merged pull requests of a GitHub repository together with their review
comments and stores the comments in per-PR text files.

Modelling conventions:
* A paginated HTTP endpoint is a function from page number to
  `Except HttpError (List _)`; a `.error` value models a transport failure or
  a non-2xx status surfaced by `raise_for_status`.
* The `while` loops of the script are given explicit fuel; a result of `none`
  means the fuel was exhausted (the loop would still be running).
* The loops additionally record the list of page numbers that were requested
  and answered successfully, so "no further page is requested" is statable.
* Python truthiness of an optional string (absent, or the empty string, is
  falsy) is `pyTruthyStr`.
* The filesystem is a map from file name to optional content; opening a file
  in mode `w` replaces its content.
-/

namespace PRFetch

/-- Truthiness of an optional string as Python evaluates it: `None` and the
empty string are falsy, every other string is truthy. -/
def pyTruthyStr (o : Option String) : Bool :=
  match o with
  | none => false
  | some s => !s.isEmpty

/-- One closed pull request as consumed by the script: its number and its
`merged_at` field (absent when the PR was closed without merging). -/
structure Item where
  number : Nat
  merged_at : Option String
deriving DecidableEq, Repr

/-- One review comment: author login, body, creation timestamp. -/
structure Comment where
  user : String
  body : String
  created_at : String
deriving DecidableEq, Repr

/-- A transport- or status-level failure of one HTTP request. -/
inductive HttpError where
  | transport : String → HttpError
  | status : Nat → HttpError
deriving DecidableEq, Repr

/-- Python slice `xs[:count]` for an arbitrary integer `count`. -/
def pySliceTo (xs : List α) (count : Int) : List α :=
  if 0 ≤ count then xs.take count.toNat
  else xs.take (xs.length - (-count).toNat)

/-- The inner `for pr in prs` loop of `fetch_merged_prs`: scan the page in
order, append every item whose `merged_at` is truthy, and break as soon as
the accumulator reaches `count`. -/
def scanPage (count : Int) : List Item → List Item → List Item
  | [], acc => acc
  | pr :: rest, acc =>
    if pyTruthyStr pr.merged_at then
      if (((acc ++ [pr]).length : Int) ≥ count) then acc ++ [pr]
      else scanPage count rest (acc ++ [pr])
    else scanPage count rest acc

/-- The `while len(merged_prs) < count` loop of `fetch_merged_prs`.
`pages` is the paginated closed-PR endpoint, `page` the next page number,
`acc` the accumulated merged PRs and `reqs` the successfully answered page
requests so far. A request that fails propagates as `.error`; running out of
fuel yields `none`. -/
def fetchMergedPrsLoop (pages : Nat → Except HttpError (List Item)) (count : Int) :
    Nat → Nat → List Item → List Nat → Option (Except HttpError (List Item × List Nat))
  | 0, _, _, _ => none
  | fuel+1, page, acc, reqs =>
    if (acc.length : Int) < count then
      match pages page with
      | .error e => some (.error e)
      | .ok prs =>
        if prs.isEmpty then some (.ok (acc, reqs ++ [page]))
        else fetchMergedPrsLoop pages count fuel (page + 1) (scanPage count prs acc) (reqs ++ [page])
    else some (.ok (acc, reqs))

/-- `fetch_merged_prs`: paginate from page 1 and return the merged PRs found,
cut to `count` by the final Python slice `merged_prs[:count]`, together with
the pages requested. -/
def fetch_merged_prs (pages : Nat → Except HttpError (List Item)) (count : Int)
    (fuel : Nat) : Option (Except HttpError (List Item × List Nat)) :=
  match fetchMergedPrsLoop pages count fuel 1 [] [] with
  | none => none
  | some (.error e) => some (.error e)
  | some (.ok (acc, reqs)) => some (.ok (pySliceTo acc count, reqs))

/-- The `while True` loop of `fetch_review_comments`: append every page to
the accumulator and stop at the first empty page. -/
def fetchReviewCommentsLoop (pages : Nat → Except HttpError (List Comment)) :
    Nat → Nat → List Comment → Option (Except HttpError (List Comment))
  | 0, _, _ => none
  | fuel+1, page, acc =>
    match pages page with
    | .error e => some (.error e)
    | .ok pc =>
      if pc.isEmpty then some (.ok acc)
      else fetchReviewCommentsLoop pages fuel (page + 1) (acc ++ pc)

/-- `fetch_review_comments`: exhaustively collect all comment pages of one
pull request, starting at page 1. -/
def fetch_review_comments (pages : Nat → Except HttpError (List Comment))
    (fuel : Nat) : Option (Except HttpError (List Comment)) :=
  fetchReviewCommentsLoop pages fuel 1 []

/-- The separator line `'-' * 40` written after each comment. -/
def sepLine : String := "----------------------------------------"

/-- Rendering of one comment: `[created] user:\nbody\n` followed by the
separator line and a newline. -/
def renderComment (c : Comment) : String :=
  "[" ++ c.created_at ++ "] " ++ c.user ++ ":\n" ++ c.body ++ "\n" ++ sepLine ++ "\n"

/-- The whole file content written for a list of comments, in order. -/
def renderComments (cs : List Comment) : String :=
  String.join (cs.map renderComment)

/-- Output file name `pr_{pr_number}_comments.txt`. -/
def commentsFileName (pr_number : Nat) : String :=
  "pr_" ++ toString pr_number ++ "_comments.txt"

/-- A filesystem: map from file name to content, `none` when absent. -/
def Filesystem : Type := String → Option String

/-- Opening a file in mode `w` and writing `content` replaces any previous
content unconditionally. -/
def writeFile (fs : Filesystem) (name content : String) : Filesystem :=
  fun k => if k = name then some content else fs k

/-- The filesystem with no files. -/
def emptyFs : Filesystem := fun _ => none

/-- `save_comments`: write the rendering of `comments` to
`pr_{pr_number}_comments.txt`, truncating any previous file. -/
def save_comments (fs : Filesystem) (pr_number : Nat) (comments : List Comment) :
    Filesystem :=
  writeFile fs (commentsFileName pr_number) (renderComments comments)

/-- Credential resolution `args.token or os.getenv('GITHUB_TOKEN_PR')`:
the explicit argument when it is truthy, otherwise the environment value. -/
def resolveToken (tokenArg envToken : Option String) : Option String :=
  if pyTruthyStr tokenArg then tokenArg else envToken

/-- Everything `main` consumes: the two credential sources, the requested
count, and the two paginated endpoints (the comment endpoint is indexed by
PR number first). -/
structure MainConfig where
  tokenArg : Option String
  envToken : Option String
  count : Int
  prPages : Nat → Except HttpError (List Item)
  commentPages : Nat → Nat → Except HttpError (List Comment)

/-- Observable outcome of one run of `main`: the configuration error
(exit 1), the "No merged PRs found." path, or the list of processed PRs as
pairs of PR number and comment count. -/
inductive MainOutcome where
  | configError
  | noMergedPrs
  | processed : List (Nat × Nat) → MainOutcome
deriving DecidableEq, Repr

/-- The per-PR loop of `main`: fetch all review comments of each PR and save
them when non-empty; an error during any fetch propagates. -/
def processPrs (cfg : MainConfig) (fuel : Nat) :
    List Item → Filesystem → Option (Except HttpError (List (Nat × Nat) × Filesystem))
  | [], fs => some (.ok ([], fs))
  | pr :: rest, fs =>
    match fetch_review_comments (cfg.commentPages pr.number) fuel with
    | none => none
    | some (.error e) => some (.error e)
    | some (.ok comments) =>
      match processPrs cfg fuel rest
          (if comments.isEmpty then fs else save_comments fs pr.number comments) with
      | none => none
      | some (.error e) => some (.error e)
      | some (.ok (log, fs2)) => some (.ok ((pr.number, comments.length) :: log, fs2))

/-- `main`: resolve the credential (exit 1 when none), fetch the merged PRs,
take the empty-result path when there are none, otherwise process each PR. -/
def main (cfg : MainConfig) (fuel : Nat) (fs0 : Filesystem) :
    Option (Except HttpError (MainOutcome × Filesystem)) :=
  if !pyTruthyStr (resolveToken cfg.tokenArg cfg.envToken) then
    some (.ok (.configError, fs0))
  else
    match fetch_merged_prs cfg.prPages cfg.count fuel with
    | none => none
    | some (.error e) => some (.error e)
    | some (.ok (prs, _)) =>
      if prs.isEmpty then some (.ok (.noMergedPrs, fs0))
      else
        match processPrs cfg fuel prs fs0 with
        | none => none
        | some (.error e) => some (.error e)
        | some (.ok (log, fs2)) => some (.ok (.processed log, fs2))

/-- Process exit status of a completed run: 1 for the configuration error and
for an uncaught `HttpError` (Python exits 1 on an uncaught exception),
0 otherwise. -/
def exitCode : Except HttpError (MainOutcome × Filesystem) → Nat
  | .error _ => 1
  | .ok (.configError, _) => 1
  | .ok _ => 0

/-- Concatenation of the pages `pf a, pf (a+1), ..., pf (a+len-1)` in page
order, keeping each page's internal order. -/
def concatPages (pf : Nat → List α) : Nat → Nat → List α
  | _, 0 => []
  | a, len+1 => pf a ++ concatPages pf (a + 1) len

/-- Sum of the lengths of the pages `pf a, ..., pf (a+len-1)`. -/
def sumPageLens (pf : Nat → List α) : Nat → Nat → Nat
  | _, 0 => 0
  | a, len+1 => (pf a).length + sumPageLens pf (a + 1) len

/-- The page numbers `[a, a+1, ..., a+len-1]`. -/
def pageRange (a : Nat) : Nat → List Nat
  | 0 => []
  | len+1 => a :: pageRange (a + 1) len

/-- The merged items of a list, in order: those whose `merged_at` is truthy. -/
def filterMerged (xs : List Item) : List Item :=
  xs.filter (fun pr => pyTruthyStr pr.merged_at)

/-- The closed item at absolute position `i` of the three-page scenario:
merged exactly at positions 5, 150 and 250. -/
def scenarioItem (i : Nat) : Item :=
  ⟨i, if i = 5 ∨ i = 150 ∨ i = 250 then some "m" else none⟩

/-- The three-page scenario source: pages 1, 2 and 3 hold 100 closed items
each (absolute positions 0 to 299), later pages are empty. -/
def scenarioPages (p : Nat) : Except HttpError (List Item) :=
  if 1 ≤ p ∧ p ≤ 3 then .ok ((List.range 100).map (fun j => scenarioItem (100 * (p - 1) + j)))
  else .ok []

/-- A source whose very first page is empty. -/
def pagesEmptySrc : Nat → Except HttpError (List Item) := fun _ => .ok []

/-- A source with a single merged item on page 1 and nothing afterwards. -/
def pagesOneMerged : Nat → Except HttpError (List Item) :=
  fun p => if p = 1 then .ok [⟨7, some "m"⟩] else .ok []

lemma pySliceTo_sub (xs : List α) (count : Int) : ∀ x ∈ pySliceTo xs count, x ∈ xs := by
  intro x hx
  unfold pySliceTo at hx
  split at hx
  · exact List.take_subset _ _ hx
  · exact List.take_subset _ _ hx

lemma pySliceTo_length_le (xs : List α) (count : Int) (h : 0 ≤ count) :
    ((pySliceTo xs count).length : Int) ≤ count := by
  unfold pySliceTo
  rw [if_pos h]
  have h1 : (xs.take count.toNat).length ≤ count.toNat := by
    simp [List.length_take]
  omega

lemma scanPage_all_merged (count : Int) :
    ∀ (xs acc : List Item), (∀ x ∈ acc, pyTruthyStr x.merged_at = true) →
      ∀ x ∈ scanPage count xs acc, pyTruthyStr x.merged_at = true := by
  intro xs
  induction xs with
  | nil =>
    intro acc hacc x hx
    exact hacc x (by simpa [scanPage] using hx)
  | cons pr rest ih =>
    intro acc hacc x hx
    rw [scanPage] at hx
    split at hx
    · rename_i hpr
      split at hx
      · rcases List.mem_append.1 hx with h | h
        · exact hacc x h
        · rw [List.mem_singleton.1 h]; exact hpr
      · refine ih (acc ++ [pr]) ?_ x hx
        intro y hy
        rcases List.mem_append.1 hy with h | h
        · exact hacc y h
        · rw [List.mem_singleton.1 h]; exact hpr
    · exact ih acc hacc x hx

lemma fetchMergedPrsLoop_all_merged (pages : Nat → Except HttpError (List Item)) (count : Int) :
    ∀ (fuel page : Nat) (acc : List Item) (reqs : List Nat) (res : List Item) (rs : List Nat),
      (∀ x ∈ acc, pyTruthyStr x.merged_at = true) →
      fetchMergedPrsLoop pages count fuel page acc reqs = some (.ok (res, rs)) →
      ∀ x ∈ res, pyTruthyStr x.merged_at = true := by
  intro fuel
  induction fuel with
  | zero =>
    intro page acc reqs res rs hacc hrun
    exact absurd hrun (by simp [fetchMergedPrsLoop])
  | succ n ih =>
    intro page acc reqs res rs hacc hrun
    rw [fetchMergedPrsLoop] at hrun
    split at hrun
    · split at hrun
      · simp at hrun
      · split at hrun
        · simp only [Option.some_inj, Except.ok.injEq, Prod.mk.injEq] at hrun
          obtain ⟨h1, h2⟩ := hrun
          subst h1
          exact hacc
        · exact ih _ _ _ _ _ (scanPage_all_merged count _ acc hacc) hrun
    · simp only [Option.some_inj, Except.ok.injEq, Prod.mk.injEq] at hrun
      obtain ⟨h1, h2⟩ := hrun
      subst h1
      exact hacc

/-- Claim C1: for every target count `N ≥ 0` and every closed-items source,
the list returned by `fetch_merged_prs` contains at most `N` items. -/
theorem fetch_merged_prs_count_bound (pages : Nat → Except HttpError (List Item))
    (count : Int) (fuel : Nat) (res : List Item) (reqs : List Nat)
    (hc : 0 ≤ count)
    (hrun : fetch_merged_prs pages count fuel = some (.ok (res, reqs))) :
    ((res.length : Int)) ≤ count := by
  unfold fetch_merged_prs at hrun
  split at hrun
  · exact absurd hrun (by simp)
  · exact absurd hrun (by simp)
  · simp only [Option.some_inj, Except.ok.injEq, Prod.mk.injEq] at hrun
    rw [← hrun.1]
    exact pySliceTo_length_le _ _ hc

/-- Claim C1, witness: the all-empty source at count 3 returns no item. -/
theorem fetch_merged_prs_count_bound_witness :
    (0 : Int) ≤ 3 ∧
      fetch_merged_prs pagesEmptySrc 3 2 = some (.ok ([], [1])) ∧
      ((([] : List Item).length : Int)) ≤ 3 :=
  ⟨by decide, rfl, fetch_merged_prs_count_bound pagesEmptySrc 3 2 [] [1] (by decide) rfl⟩

/-- Claim C2: every item returned by `fetch_merged_prs` carries a present
(truthy) `merged_at` timestamp. -/
theorem fetch_merged_prs_all_merged (pages : Nat → Except HttpError (List Item))
    (count : Int) (fuel : Nat) (res : List Item) (reqs : List Nat)
    (hrun : fetch_merged_prs pages count fuel = some (.ok (res, reqs))) :
    ∀ x ∈ res, pyTruthyStr x.merged_at = true := by
  unfold fetch_merged_prs at hrun
  split at hrun
  · exact absurd hrun (by simp)
  · exact absurd hrun (by simp)
  · rename_i acc reqs1 heq
    simp only [Option.some_inj, Except.ok.injEq, Prod.mk.injEq] at hrun
    intro x hx
    refine fetchMergedPrsLoop_all_merged pages count fuel 1 [] [] acc reqs1 (by simp) heq x ?_
    exact pySliceTo_sub acc count x (hrun.1 ▸ hx)

/-- Claim C2, witness: the one-merged-item source returns that item, and its
merge timestamp is present. -/
theorem fetch_merged_prs_all_merged_witness :
    pyTruthyStr (Item.mk 7 (some "m")).merged_at = true :=
  fetch_merged_prs_all_merged pagesOneMerged 5 3 [⟨7, some "m"⟩] [1, 2] rfl
    ⟨7, some "m"⟩ (by simp)

lemma scanPage_stop (count : Int) :
    ∀ (xs ys acc : List Item), ((acc.length : Int) < count) →
      (((scanPage count xs acc).length : Int) ≥ count) →
      scanPage count (xs ++ ys) acc = scanPage count xs acc := by
  intro xs
  induction xs with
  | nil =>
    intro ys acc hlt hge
    have hfalse : False := by
      simp only [scanPage] at hge
      omega
    exact hfalse.elim
  | cons pr rest ih =>
    intro ys acc hlt hge
    by_cases hm : pyTruthyStr pr.merged_at = true
    · by_cases hstop : (((acc ++ [pr]).length : Int) ≥ count)
      · simp only [List.cons_append, scanPage, hm, if_true, if_pos hstop]
      · simp only [scanPage, hm, if_true, if_neg hstop] at hge
        simp only [List.cons_append, scanPage, hm, if_true, if_neg hstop]
        exact ih ys (acc ++ [pr]) (by simp at hstop ⊢; omega) hge
    · simp only [scanPage, hm, if_false, Bool.false_eq_true] at hge
      simp only [List.cons_append, scanPage, hm, if_false, Bool.false_eq_true]
      exact ih ys acc hlt hge

lemma fetchMergedPrsLoop_stop (pages : Nat → Except HttpError (List Item)) (count : Int)
    (fuel page : Nat) (acc : List Item) (reqs : List Nat)
    (h : (acc.length : Int) ≥ count) :
    fetchMergedPrsLoop pages count (fuel + 1) page acc reqs = some (.ok (acc, reqs)) := by
  rw [fetchMergedPrsLoop, if_neg (by omega)]

/-- Claim C3: as soon as the accumulator reaches size N, scanning of the
current page stops (appending further page content changes nothing) and the
loop returns without requesting any further page; in particular, in the
three-page scenario with merged items at positions 5, 150 and 250 and
count 2, the result is the items at positions 5 and 150 and only pages 1 and
2 are requested. -/
theorem fetch_merged_prs_early_stop :
    (∀ (count : Int) (xs ys acc : List Item), ((acc.length : Int) < count) →
        (((scanPage count xs acc).length : Int) ≥ count) →
        scanPage count (xs ++ ys) acc = scanPage count xs acc) ∧
    (∀ (pages : Nat → Except HttpError (List Item)) (count : Int) (fuel page : Nat)
        (acc : List Item) (reqs : List Nat), ((acc.length : Int) ≥ count) →
        fetchMergedPrsLoop pages count (fuel + 1) page acc reqs = some (.ok (acc, reqs))) ∧
    fetch_merged_prs scenarioPages 2 10 =
      some (.ok ([scenarioItem 5, scenarioItem 150], [1, 2])) :=
  ⟨scanPage_stop, fetchMergedPrsLoop_stop, rfl⟩

/-- Claim C3, witness: concrete instances of the two universally quantified
conjuncts, at count 1 with one merged item already scanned. -/
theorem fetch_merged_prs_early_stop_witness :
    scanPage 1 ([⟨0, some "m"⟩] ++ [⟨1, some "m"⟩]) [] = scanPage 1 [⟨0, some "m"⟩] [] ∧
    fetchMergedPrsLoop pagesEmptySrc 1 (2 + 1) 2 [⟨0, some "m"⟩] [1] =
      some (.ok ([⟨0, some "m"⟩], [1])) :=
  ⟨fetch_merged_prs_early_stop.1 1 [⟨0, some "m"⟩] [⟨1, some "m"⟩] [] (by decide) (by decide),
   fetch_merged_prs_early_stop.2.1 pagesEmptySrc 1 2 2 [⟨0, some "m"⟩] [1] (by decide)⟩

lemma filterMerged_append (xs ys : List Item) :
    filterMerged (xs ++ ys) = filterMerged xs ++ filterMerged ys := by
  simp [filterMerged, List.filter_append]

lemma scanPage_under (count : Int) :
    ∀ (xs acc : List Item),
      ((acc.length : Int) + ((filterMerged xs).length : Int) < count) →
      scanPage count xs acc = acc ++ filterMerged xs := by
  intro xs
  induction xs with
  | nil =>
    intro acc h
    simp [scanPage, filterMerged]
  | cons pr rest ih =>
    intro acc h
    by_cases hm : pyTruthyStr pr.merged_at = true
    · have hflt : filterMerged (pr :: rest) = pr :: filterMerged rest := by
        simp [filterMerged, hm]
      rw [hflt] at h
      have hlen : ¬ (((acc ++ [pr]).length : Int) ≥ count) := by
        simp only [List.length_append, List.length_cons, List.length_nil] at h ⊢
        push_cast at h ⊢
        omega
      rw [scanPage, if_pos hm, if_neg hlen, hflt,
        ih (acc ++ [pr]) (by
          simp only [List.length_append, List.length_cons, List.length_nil] at h ⊢
          push_cast at h ⊢
          omega)]
      simp
    · have hflt : filterMerged (pr :: rest) = filterMerged rest := by
        simp [filterMerged, hm]
      rw [hflt] at h
      rw [scanPage, if_neg hm, hflt, ih acc h]

lemma pySliceTo_all (xs : List α) (count : Int) (h : (xs.length : Int) < count) :
    pySliceTo xs count = xs := by
  unfold pySliceTo
  rw [if_pos (by omega)]
  exact List.take_of_length_le (by omega)

/-- Lift a pure page function to the always-successful endpoint. -/
def liftOk (pf : Nat → List α) : Nat → Except HttpError (List α) :=
  fun p => .ok (pf p)

lemma fetchMergedPrsLoop_exhaust (pf : Nat → List Item) (count : Int) :
    ∀ (fuel len page : Nat) (acc : List Item) (reqs : List Nat),
      pf (page + len) = [] →
      (∀ q, page ≤ q → q < page + len → pf q ≠ []) →
      len < fuel →
      ((acc.length : Int) + ((filterMerged (concatPages pf page len)).length : Int) < count) →
      fetchMergedPrsLoop (liftOk pf) count fuel page acc reqs =
        some (.ok (acc ++ filterMerged (concatPages pf page len),
          reqs ++ pageRange page (len + 1))) := by
  intro fuel
  induction fuel with
  | zero =>
    intro len page acc reqs _ _ hfuel _
    omega
  | succ n ih =>
    intro len page acc reqs hempty hne hfuel hcount
    have hlt : (acc.length : Int) < count := by
      have := Int.ofNat_nonneg (filterMerged (concatPages pf page len)).length
      omega
    rw [fetchMergedPrsLoop, if_pos hlt]
    cases len with
    | zero =>
      have hpp : pf page = [] := by simpa using hempty
      simp only [liftOk, hpp, List.isEmpty_nil, if_true]
      simp [concatPages, filterMerged, pageRange]
    | succ k =>
      have hpne : pf page ≠ [] := hne page (Nat.le_refl page) (by omega)
      have hiso : (pf page).isEmpty = false := by
        cases hpf : pf page with
        | nil => exact absurd hpf hpne
        | cons a l => rfl
      simp only [liftOk, hiso, Bool.false_eq_true, if_false]
      have hsplit : filterMerged (concatPages pf page (k + 1)) =
          filterMerged (pf page) ++ filterMerged (concatPages pf (page + 1) k) := by
        rw [concatPages, filterMerged_append]
      have hscan : scanPage count (pf page) acc = acc ++ filterMerged (pf page) := by
        refine scanPage_under count (pf page) acc ?_
        rw [hsplit] at hcount
        simp only [List.length_append] at hcount
        push_cast at hcount ⊢
        omega
      rw [hscan]
      have hemp2 : pf (page + 1 + k) = [] := by
        have h : page + 1 + k = page + (k + 1) := by omega
        rw [h]; exact hempty
      have hne2 : ∀ q, page + 1 ≤ q → q < page + 1 + k → pf q ≠ [] := by
        intro q h1 h2
        exact hne q (by omega) (by omega)
      have hcount2 : (((acc ++ filterMerged (pf page)).length : Int) +
          ((filterMerged (concatPages pf (page + 1) k)).length : Int) < count) := by
        rw [hsplit] at hcount
        simp only [List.length_append] at hcount ⊢
        push_cast at hcount ⊢
        omega
      rw [ih k (page + 1) (acc ++ filterMerged (pf page)) (reqs ++ [page]) hemp2 hne2
        (by omega) hcount2]
      rw [hsplit]
      simp [pageRange]

/-- Claim C4: when the source holds fewer than `count` merged items in the
`len` non-empty pages before its first empty page, `fetch_merged_prs`
terminates after requesting pages 1 to `len + 1` and returns exactly the
merged items found, in order; partial or merged-free pages do not stop
pagination, only the zero-length page at `len + 1` does. -/
theorem fetch_merged_prs_exhaustion (pf : Nat → List Item) (count : Int) (len fuel : Nat)
    (hempty : pf (1 + len) = [])
    (hne : ∀ q, 1 ≤ q → q < 1 + len → pf q ≠ [])
    (hfuel : len < fuel)
    (hcount : ((filterMerged (concatPages pf 1 len)).length : Int) < count) :
    fetch_merged_prs (liftOk pf) count fuel =
      some (.ok (filterMerged (concatPages pf 1 len), pageRange 1 (len + 1))) := by
  unfold fetch_merged_prs
  rw [fetchMergedPrsLoop_exhaust pf count fuel len 1 [] [] hempty hne hfuel
    (by simpa using hcount)]
  simp only [List.nil_append]
  rw [pySliceTo_all _ _ hcount]

/-- A source with one unmerged item on page 1 and nothing afterwards. -/
def pagesOneUnmerged : Nat → List Item := fun q => if q = 1 then [⟨1, none⟩] else []

/-- Claim C4, witness: a source with a single unmerged item and first empty
page at page 2, at count 2, terminates with the empty result after
requesting pages 1 and 2. -/
theorem fetch_merged_prs_exhaustion_witness :
    fetch_merged_prs (liftOk pagesOneUnmerged) 2 2 = some (.ok ([], [1, 2])) := by
  have h := fetch_merged_prs_exhaustion pagesOneUnmerged 2 1 2 rfl
    (fun q h1 h2 => by
      have hq : q = 1 := by omega
      rw [hq]
      simp [pagesOneUnmerged])
    (by decide) (by decide)
  simpa [pagesOneUnmerged, concatPages, filterMerged, pageRange, pyTruthyStr] using h

lemma concatPages_length (pf : Nat → List α) :
    ∀ (len a : Nat), (concatPages pf a len).length = sumPageLens pf a len := by
  intro len
  induction len with
  | zero => intro a; simp [concatPages, sumPageLens]
  | succ k ih =>
    intro a
    rw [concatPages, sumPageLens, List.length_append, ih (a + 1)]

lemma fetchReviewCommentsLoop_exhaust (pf : Nat → List Comment) :
    ∀ (fuel len page : Nat) (acc : List Comment),
      pf (page + len) = [] →
      (∀ q, page ≤ q → q < page + len → pf q ≠ []) →
      len < fuel →
      fetchReviewCommentsLoop (liftOk pf) fuel page acc =
        some (.ok (acc ++ concatPages pf page len)) := by
  intro fuel
  induction fuel with
  | zero =>
    intro len page acc _ _ hfuel
    omega
  | succ n ih =>
    intro len page acc hempty hne hfuel
    rw [fetchReviewCommentsLoop]
    cases len with
    | zero =>
      have hpp : pf page = [] := by simpa using hempty
      simp only [liftOk, hpp, List.isEmpty_nil, if_true]
      simp [concatPages]
    | succ k =>
      have hpne : pf page ≠ [] := hne page (Nat.le_refl page) (by omega)
      have hiso : (pf page).isEmpty = false := by
        cases hpf : pf page with
        | nil => exact absurd hpf hpne
        | cons a l => rfl
      simp only [liftOk, hiso, Bool.false_eq_true, if_false]
      have hemp2 : pf (page + 1 + k) = [] := by
        have h : page + 1 + k = page + (k + 1) := by omega
        rw [h]; exact hempty
      have hne2 : ∀ q, page + 1 ≤ q → q < page + 1 + k → pf q ≠ [] := by
        intro q h1 h2
        exact hne q (by omega) (by omega)
      rw [ih k (page + 1) (acc ++ pf page) hemp2 hne2 (by omega), concatPages]
      simp

/-- Claim C5: for a comment source whose first empty page is page `len + 1`,
`fetch_review_comments` returns the concatenation of the `len` non-empty
pages in page order with in-page order kept, and the returned length is the
sum of all page lengths; nothing is filtered and no count limit applies. -/
theorem fetch_review_comments_complete (pf : Nat → List Comment) (len fuel : Nat)
    (hempty : pf (1 + len) = [])
    (hne : ∀ q, 1 ≤ q → q < 1 + len → pf q ≠ [])
    (hfuel : len < fuel) :
    fetch_review_comments (liftOk pf) fuel = some (.ok (concatPages pf 1 len)) ∧
      (concatPages pf 1 len).length = sumPageLens pf 1 len := by
  constructor
  · unfold fetch_review_comments
    rw [fetchReviewCommentsLoop_exhaust pf fuel len 1 [] hempty hne hfuel]
    simp
  · exact concatPages_length pf len 1

/-- A comment source with one comment on page 1 and nothing afterwards. -/
def commentsOnePage : Nat → List Comment :=
  fun q => if q = 1 then [⟨"alice", "looks good", "2024-01-01"⟩] else []

/-- Claim C5, witness: the one-comment source is returned whole, and its
length is the page-length sum. -/
theorem fetch_review_comments_complete_witness :
    fetch_review_comments (liftOk commentsOnePage) 2 =
      some (.ok [⟨"alice", "looks good", "2024-01-01"⟩]) ∧
      ([(⟨"alice", "looks good", "2024-01-01"⟩ : Comment)]).length = 1 := by
  have h := fetch_review_comments_complete commentsOnePage 1 2 rfl
    (fun q h1 h2 => by
      have hq : q = 1 := by omega
      rw [hq]
      simp [commentsOnePage])
    (by decide)
  exact ⟨h.1, rfl⟩

lemma fetchMergedPrsLoop_error (pages : Nat → Except HttpError (List Item))
    (pf : Nat → List Item) (count : Int) (e : HttpError) :
    ∀ (fuel len page : Nat) (acc : List Item) (reqs : List Nat),
      pages (page + len) = .error e →
      (∀ q, page ≤ q → q < page + len → pages q = .ok (pf q) ∧ pf q ≠ []) →
      len < fuel →
      ((acc.length : Int) + ((filterMerged (concatPages pf page len)).length : Int) < count) →
      fetchMergedPrsLoop pages count fuel page acc reqs = some (.error e) := by
  intro fuel
  induction fuel with
  | zero =>
    intro len page acc reqs _ _ hfuel _
    omega
  | succ n ih =>
    intro len page acc reqs herr hok hfuel hcount
    have hlt : (acc.length : Int) < count := by
      have := Int.ofNat_nonneg (filterMerged (concatPages pf page len)).length
      omega
    rw [fetchMergedPrsLoop, if_pos hlt]
    cases len with
    | zero =>
      have hpp : pages page = .error e := by simpa using herr
      simp [hpp]
    | succ k =>
      obtain ⟨hpeq, hpne⟩ := hok page (Nat.le_refl page) (by omega)
      have hiso : (pf page).isEmpty = false := by
        cases hpf : pf page with
        | nil => exact absurd hpf hpne
        | cons a l => rfl
      simp only [hpeq, hiso, Bool.false_eq_true, if_false]
      have hsplit : filterMerged (concatPages pf page (k + 1)) =
          filterMerged (pf page) ++ filterMerged (concatPages pf (page + 1) k) := by
        rw [concatPages, filterMerged_append]
      have hscan : scanPage count (pf page) acc = acc ++ filterMerged (pf page) := by
        refine scanPage_under count (pf page) acc ?_
        rw [hsplit] at hcount
        simp only [List.length_append] at hcount
        push_cast at hcount ⊢
        omega
      rw [hscan]
      have herr2 : pages (page + 1 + k) = .error e := by
        have h : page + 1 + k = page + (k + 1) := by omega
        rw [h]; exact herr
      have hok2 : ∀ q, page + 1 ≤ q → q < page + 1 + k → pages q = .ok (pf q) ∧ pf q ≠ [] := by
        intro q h1 h2
        exact hok q (by omega) (by omega)
      refine ih k (page + 1) (acc ++ filterMerged (pf page)) (reqs ++ [page]) herr2 hok2
        (by omega) ?_
      rw [hsplit] at hcount
      simp only [List.length_append] at hcount ⊢
      push_cast at hcount ⊢
      omega

/-- Claim C6: when the request for page `len + 1` fails while the pages
before it were non-empty and had delivered fewer than `count` merged items,
`fetch_merged_prs` evaluates to the propagated error: no partial result list
is returned and the error is the one raised by the failing request. -/
theorem fetch_merged_prs_error_propagates (pages : Nat → Except HttpError (List Item))
    (pf : Nat → List Item) (count : Int) (e : HttpError) (len fuel : Nat)
    (herr : pages (1 + len) = .error e)
    (hok : ∀ q, 1 ≤ q → q < 1 + len → pages q = .ok (pf q) ∧ pf q ≠ [])
    (hfuel : len < fuel)
    (hcount : ((filterMerged (concatPages pf 1 len)).length : Int) < count) :
    fetch_merged_prs pages count fuel = some (.error e) := by
  unfold fetch_merged_prs
  rw [fetchMergedPrsLoop_error pages pf count e fuel len 1 [] [] herr hok hfuel
    (by simpa using hcount)]

/-- A source whose first page holds one unmerged item and whose second
request fails with HTTP status 500. -/
def pagesThenError : Nat → Except HttpError (List Item) :=
  fun q => if q = 1 then .ok [⟨1, none⟩] else .error (.status 500)

/-- Claim C6, witness: the failing second request aborts the whole fetch
with the propagated status error. -/
theorem fetch_merged_prs_error_propagates_witness :
    fetch_merged_prs pagesThenError 3 2 = some (.error (.status 500)) :=
  fetch_merged_prs_error_propagates pagesThenError pagesOneUnmerged 3 (.status 500) 1 2
    rfl
    (fun q h1 h2 => by
      have hq : q = 1 := by omega
      rw [hq]
      exact ⟨rfl, by simp [pagesOneUnmerged]⟩)
    (by decide) (by decide)

/-- Claim C7: saving comments twice under the same PR number leaves the
output file holding exactly the rendering of the second list — the second
save is a plain overwrite, equal to saving the second list alone. -/
theorem save_comments_overwrite (fs : Filesystem) (n : Nat) (c1 c2 : List Comment) :
    (save_comments (save_comments fs n c1) n c2) (commentsFileName n) =
      some (renderComments c2) ∧
    save_comments (save_comments fs n c1) n c2 = save_comments fs n c2 := by
  constructor
  · simp [save_comments, writeFile]
  · funext k
    simp only [save_comments, writeFile]
    split
    · rfl
    · rfl

/-- Claim C8, counterexample: the parameter `--token ""` is supplied yet the
resolved credential comes from, and depends on, the environment variable, so
a supplied parameter does not always override the environment. -/
theorem resolveToken_empty_param_uses_env :
    resolveToken (some "") (some "envtok") = some "envtok" ∧
    resolveToken (some "") (some "envtok") ≠ resolveToken (some "") none := by
  decide

/-- Claim C8 (amended): whenever the supplied parameter is truthy (a
non-empty string), it is the resolved credential and the environment value
is never consulted — the result is the same for every environment. -/
theorem resolveToken_param_priority (s : String) (env env2 : Option String)
    (h : s ≠ "") :
    resolveToken (some s) env = some s ∧
    resolveToken (some s) env = resolveToken (some s) env2 := by
  have ht : pyTruthyStr (some s) = true := by
    have hs : s.isEmpty = false := by
      cases hse : s.isEmpty
      · rfl
      · exact absurd ((String.isEmpty_iff s).1 hse) h
    simp [pyTruthyStr, hs]
  unfold resolveToken
  rw [if_pos ht, if_pos ht]
  exact ⟨rfl, rfl⟩

/-- Claim C8, witness: the concrete token "tok" wins over any environment. -/
theorem resolveToken_param_priority_witness :
    resolveToken (some "tok") (some "envtok") = some "tok" ∧
    resolveToken (some "tok") (some "envtok") = resolveToken (some "tok") none :=
  resolveToken_param_priority "tok" (some "envtok") none (by decide)

/-- A configuration with a resolvable credential whose very first page
request fails with HTTP status 500. -/
def badCfg : MainConfig :=
  ⟨some "t", none, 10, fun _ => .error (.status 500), fun _ _ => .ok []⟩

/-- Claim C9, counterexample: with a resolvable credential but a failing
first page request, the run ends in the propagated error, whose process
exit status is 1 — refuting that status 1 occurs only when no credential is
resolvable. -/
theorem main_error_exit_one :
    pyTruthyStr (resolveToken badCfg.tokenArg badCfg.envToken) = true ∧
    main badCfg 2 emptyFs = some (.error (.status 500)) ∧
    exitCode (.error (.status 500)) = 1 :=
  ⟨by decide, rfl, rfl⟩

/-- Claim C9 (amended): when no credential is resolvable the run ends in the
configuration error with exit status 1, and the outcome is the same for
every pair of page sources (zero network requests); when a credential is
resolvable, every run that completes without a propagated request error
exits with status 0, including the empty-ResultSet case. -/
theorem main_exit_code (cfg : MainConfig) (fuel : Nat) (fs0 : Filesystem) :
    (pyTruthyStr (resolveToken cfg.tokenArg cfg.envToken) = false →
      main cfg fuel fs0 = some (.ok (.configError, fs0)) ∧
      exitCode (.ok (.configError, fs0)) = 1 ∧
      ∀ (pr : Nat → Except HttpError (List Item))
        (cp : Nat → Nat → Except HttpError (List Comment)),
        main { cfg with prPages := pr, commentPages := cp } fuel fs0 =
          some (.ok (.configError, fs0))) ∧
    (pyTruthyStr (resolveToken cfg.tokenArg cfg.envToken) = true →
      ∀ (out : MainOutcome) (fs : Filesystem),
        main cfg fuel fs0 = some (.ok (out, fs)) → exitCode (.ok (out, fs)) = 0) := by
  constructor
  · intro h
    refine ⟨by simp [main, h], rfl, ?_⟩
    intro pr cp
    simp [main, h]
  · intro h out fs hrun
    simp only [main, h, Bool.not_true, Bool.false_eq_true, if_false] at hrun
    split at hrun
    · exact absurd hrun (by simp)
    · exact absurd hrun (by simp)
    · split at hrun
      · simp only [Option.some_inj, Except.ok.injEq, Prod.mk.injEq] at hrun
        obtain ⟨h1, h2⟩ := hrun
        rw [← h1]
        rfl
      · split at hrun
        · exact absurd hrun (by simp)
        · exact absurd hrun (by simp)
        · simp only [Option.some_inj, Except.ok.injEq, Prod.mk.injEq] at hrun
          obtain ⟨h1, h2⟩ := hrun
          rw [← h1]
          rfl

/-- A configuration with no credential from either source. -/
def noTokenCfg : MainConfig := ⟨none, none, 10, pagesEmptySrc, fun _ _ => .ok []⟩

/-- A configuration with a credential and an immediately exhausted source. -/
def okCfg : MainConfig := ⟨some "t", none, 10, pagesEmptySrc, fun _ _ => .ok []⟩

/-- Claim C9, witness: the credential-less run is the configuration error,
and the credentialed empty-source run exits 0 through the empty-ResultSet
path. -/
theorem main_exit_code_witness :
    main noTokenCfg 2 emptyFs = some (.ok (.configError, emptyFs)) ∧
    exitCode (.ok (.noMergedPrs, emptyFs)) = 0 :=
  ⟨((main_exit_code noTokenCfg 2 emptyFs).1 (by decide)).1,
   (main_exit_code okCfg 2 emptyFs).2 (by decide) .noMergedPrs emptyFs rfl⟩

/-- Claim C10: for a non-positive target count the loop guard fails at once:
no page is requested and the empty list is returned, so the orchestrator
takes the empty-ResultSet path and the run exits with status 0. -/
theorem fetch_merged_prs_nonpositive_count (cfg : MainConfig) (fuel : Nat) (fs0 : Filesystem)
    (hc : cfg.count ≤ 0) (hfuel : 1 ≤ fuel)
    (htok : pyTruthyStr (resolveToken cfg.tokenArg cfg.envToken) = true) :
    fetch_merged_prs cfg.prPages cfg.count fuel = some (.ok ([], [])) ∧
    main cfg fuel fs0 = some (.ok (.noMergedPrs, fs0)) ∧
    exitCode (.ok (.noMergedPrs, fs0)) = 0 := by
  have hfetch : fetch_merged_prs cfg.prPages cfg.count fuel = some (.ok ([], [])) := by
    obtain ⟨n, rfl⟩ : ∃ n, fuel = n + 1 := ⟨fuel - 1, by omega⟩
    unfold fetch_merged_prs
    rw [fetchMergedPrsLoop, if_neg (by simp only [List.length_nil]; omega)]
    simp [pySliceTo]
  refine ⟨hfetch, ?_, rfl⟩
  simp [main, htok, hfetch]

/-- Claim C10, witness: with count 0 even a source that has a merged item is
never queried: the result is empty and the run takes the no-merged-PRs
path. -/
theorem fetch_merged_prs_nonpositive_count_witness :
    fetch_merged_prs pagesOneMerged 0 3 = some (.ok ([], [])) ∧
    main ⟨some "t", none, 0, pagesOneMerged, fun _ _ => .ok []⟩ 3 emptyFs =
      some (.ok (.noMergedPrs, emptyFs)) :=
  have h := fetch_merged_prs_nonpositive_count
    ⟨some "t", none, 0, pagesOneMerged, fun _ _ => .ok []⟩ 3 emptyFs
    (by decide) (by decide) (by decide)
  ⟨h.1, h.2.1⟩

end PRFetch
